import Mathlib

/-!
Verification development for the shopify-store-scraper repository.

The Python modules `scraper.py`, `discovery.py`, `output.py` and `config.py`
are shallowly embedded below: pure helper functions become Lean functions on
`String` / `List Char`, the per-domain scrape orchestrator becomes a pure
function over an explicit fetcher environment (page fetches are numbered so
that retry attempts are observable), and the discovery batch runner becomes a
pure state-transition function that also records which queries it executed and
which files it would have saved.  Python's `re` scans used by the code
(the email regex, the image-sizing junk patterns, and the wa.me phone regex)
are embedded as deterministic character-list matchers implementing the
leftmost/greedy semantics these particular patterns have.
-/

/- ------------------------------------------------------------------ -/
/- Character and string utilities (Python str methods used by the code) -/
/- ------------------------------------------------------------------ -/

/-- ASCII lower-casing of one character, as Python `str.lower` acts on the
ASCII range (all detection patterns in the config are ASCII). -/
def lowerChar (c : Char) : Char :=
  if 65 ≤ c.toNat ∧ c.toNat ≤ 90 then Char.ofNat (c.toNat + 32) else c

/-- Python `str.lower` on a character list. -/
def lowerCL (l : List Char) : List Char := l.map lowerChar

/-- Needle is a prefix of the haystack (character-by-character). -/
def startsWithCL : List Char → List Char → Bool
  | [], _ => true
  | _ :: _, [] => false
  | a :: as, b :: bs => a == b && startsWithCL as bs

/-- Python substring test (the binary operator `in` on strings). -/
def containsCL (n : List Char) : List Char → Bool
  | [] => n.isEmpty
  | l@(_ :: t) => startsWithCL n l || containsCL n t

/-- Needle is a suffix of the haystack. -/
def endsWithCL (n l : List Char) : Bool := startsWithCL n.reverse l.reverse

/-- Python `str.strip()` (whitespace trim at both ends). -/
def trimCL (l : List Char) : List Char :=
  ((l.dropWhile Char.isWhitespace).reverse.dropWhile Char.isWhitespace).reverse

/-- Python `s.split(c)[0]`: everything before the first occurrence of `c`. -/
def takeBeforeCL (c : Char) (l : List Char) : List Char := l.takeWhile (· != c)

/-- Python `s.split(c)[-1]`: everything after the last occurrence of `c`
(the whole string when `c` does not occur). -/
def afterLastCL (c : Char) (l : List Char) : List Char :=
  (l.reverse.takeWhile (· != c)).reverse

/-- Does `p` hold at some start position (suffix) of the list?  This is the
scan performed by Python `re.search`. -/
def existsPos (p : List Char → Bool) : List Char → Bool
  | [] => p []
  | l@(_ :: t) => p l || existsPos p t

/- ------------------------------------------------------------------ -/
/- config.py constants used by the embedded modules                    -/
/- ------------------------------------------------------------------ -/

/-- config.py `EMAIL_PRIORITY` (a Python dict; the list order below is its
insertion order, which is the order `_get_email_priority` iterates in). -/
def EMAIL_PRIORITY : List (String × Nat) :=
  [("owner", 1), ("founder", 1), ("ceo", 1),
   ("hello", 2), ("hi", 2),
   ("contact", 3),
   ("info", 4), ("enquiries", 4), ("enquiry", 4),
   ("sales", 5), ("support", 6), ("admin", 7)]

/-- config.py `DEFAULT_EMAIL_PRIORITY`. -/
def DEFAULT_EMAIL_PRIORITY : Nat := 3

/-- config.py `JUNK_EMAIL_PATTERNS`. -/
def JUNK_EMAIL_PATTERNS : List String :=
  ["noreply@", "no-reply@", "support@shopify.com", "help@shopify.com",
   "@sentry.io", "@tally.so", "@bento.me", "@example.com", "@wixpress.com",
   "@wix.com", "@shopify.com", "@klaviyo.com", "@mailchimp.com",
   "@hubspot.com", "@zendesk.com"]

/-- config.py `FREE_EMAIL_PROVIDERS`. -/
def FREE_EMAIL_PROVIDERS : List String :=
  ["gmail.com", "yahoo.com", "hotmail.com", "outlook.com", "aol.com",
   "icloud.com", "protonmail.com"]

/-- config.py `WHATSAPP_DEFINITIVE_PATTERNS`. -/
def WHATSAPP_DEFINITIVE_PATTERNS : List String :=
  ["wa.me/", "api.whatsapp.com/send", "web.whatsapp.com/send"]

/-- config.py `WHATSAPP_WIDGET_PATTERNS`. -/
def WHATSAPP_WIDGET_PATTERNS : List String :=
  ["wa-chat-box", "whatsapp-widget", "elfsight.com/whatsapp",
   "whatsapp-chat-widget", "wa-automate", "wati.io"]

/-- config.py `WHATSAPP_WEAK_PATTERNS`. -/
def WHATSAPP_WEAK_PATTERNS : List String := ["whatsapp", "WhatsApp"]

/-- config.py `CONTACT_PAGE_PATHS`. -/
def CONTACT_PAGE_PATHS : List String :=
  ["/pages/contact", "/pages/contact-us", "/pages/about", "/pages/about-us",
   "/pages/kontak", "/pages/oor-ons", "/pages/get-in-touch", "/pages/support"]

/-- config.py `SCRAPE_MAX_RETRIES`. -/
def SCRAPE_MAX_RETRIES : Nat := 3

/-- config.py `DORK_BATCH_SIZE`. -/
def DORK_BATCH_SIZE : Nat := 10

/- ------------------------------------------------------------------ -/
/- scraper.py: the email regex scan (re.findall(EMAIL_REGEX, html))    -/
/- ------------------------------------------------------------------ -/

/-- Character class `[a-zA-Z0-9._%+\-]` of the local part of
config.py `EMAIL_REGEX`. -/
def isEmailLocalChar (c : Char) : Bool :=
  c.isAlpha || c.isDigit || c == '.' || c == '_' || c == '%' || c == '+' || c == '-'

/-- Character class `[a-zA-Z0-9.\-]` of the domain part of `EMAIL_REGEX`. -/
def isEmailDomChar (c : Char) : Bool :=
  c.isAlpha || c.isDigit || c == '.' || c == '-'

/-- Is the optional character an ASCII letter? -/
def isAlphaO : Option Char → Bool
  | some c => c.isAlpha
  | none => false

/-- Backtracking point of the greedy `[a-zA-Z0-9.\-]+\.[a-zA-Z]{2,}` tail of
`EMAIL_REGEX`: within the maximal run `b` of domain characters, the largest
`j ≥ 1` such that `b[j]` is a dot followed by at least two ASCII letters
(the largest because the `+` is greedy and gives back as little as possible). -/
def findDotSplit (b : List Char) : Option Nat :=
  (List.range b.length).reverse.find? (fun j =>
    decide (1 ≤ j) && (b[j]? == some '.')
      && isAlphaO b[j + 1]? && isAlphaO b[j + 2]?)

/-- Match of `EMAIL_REGEX` anchored at the head of `l`: returns the matched
characters and the remainder of the input after the match.  The local-part
`+` necessarily consumes its maximal run (an `@` is not a local character),
and the domain `+` backtracks to `findDotSplit`; the final `[a-zA-Z]{2,}` is
greedy with nothing after it, so it takes the maximal letter run. -/
def matchEmailAt (l : List Char) : Option (List Char × List Char) :=
  let a := l.takeWhile isEmailLocalChar
  if a.isEmpty then none
  else
    match l.drop a.length with
    | '@' :: r2 =>
      let b := r2.takeWhile isEmailDomChar
      match findDotSplit b with
      | none => none
      | some j =>
        let t := (b.drop (j + 1)).takeWhile Char.isAlpha
        some (a ++ '@' :: (b.take j ++ '.' :: t),
              (b.drop (j + 1 + t.length)) ++ r2.drop b.length)
    | _ => none

/-- Fuelled scan of `re.findall(EMAIL_REGEX, ·)`: leftmost non-overlapping
matches; on failure the scan advances one character.  The fuel (the input
length) strictly bounds the number of steps since every step consumes at
least one character. -/
def emailFindallAux : Nat → List Char → List (List Char)
  | 0, _ => []
  | _ + 1, [] => []
  | fuel + 1, l@(_ :: rest) =>
    match matchEmailAt l with
    | some (m, r) => m :: emailFindallAux fuel r
    | none => emailFindallAux fuel rest

/-- scraper.py `re.findall(EMAIL_REGEX, html)`. -/
def emailFindall (l : List Char) : List (List Char) := emailFindallAux l.length l

/- ------------------------------------------------------------------ -/
/- scraper.py: junk filtering, priority, free providers                -/
/- ------------------------------------------------------------------ -/

/-- Image/asset extensions filtered by `_is_junk_email`. -/
def IMAGE_EXTENSIONS : List String :=
  [".png", ".jpg", ".jpeg", ".webp", ".gif", ".svg", ".css", ".js"]

/-- Placeholder addresses filtered exactly by `_is_junk_email`. -/
def JUNK_EXACT : List String :=
  ["xxx@xxx.xxx", "name@email.com", "monique@email.com", "admin@example.com",
   "email@example.com", "your@email.com"]

/-- Anchored match of the junk pattern `_\d+x@` (underscore, one or more
digits — maximal, since `x` is not a digit — then `x@`). -/
def matchSizingXAt : List Char → Bool
  | '_' :: rest =>
    let d := rest.takeWhile Char.isDigit
    decide (d ≠ []) &&
      (match rest.drop d.length with
       | 'x' :: '@' :: _ => true
       | _ => false)
  | _ => false

/-- Anchored match of the junk pattern `_\d+x\d*\.`. -/
def matchSizingDotAt : List Char → Bool
  | '_' :: rest =>
    let d := rest.takeWhile Char.isDigit
    decide (d ≠ []) &&
      (match rest.drop d.length with
       | 'x' :: rest2 =>
         (match rest2.drop (rest2.takeWhile Char.isDigit).length with
          | '.' :: _ => true
          | _ => false)
       | _ => false)
  | _ => false

/-- scraper.py `_is_junk_email`. -/
def is_junk_email (email : String) : Bool :=
  let el := lowerCL email.data
  IMAGE_EXTENSIONS.any (fun ext => endsWithCL ext.data el)
  || containsCL "@2x.".data el
  || existsPos matchSizingXAt el
  || existsPos matchSizingDotAt el
  || JUNK_EXACT.any (fun j => el == j.data)
  || JUNK_EMAIL_PATTERNS.any (fun p => containsCL (lowerCL p.data) el)

/-- scraper.py `_is_free_provider`: the part after the last `@`, lowercased,
is a member of the free-provider list. -/
def is_free_provider (email : String) : Bool :=
  FREE_EMAIL_PROVIDERS.any (fun d => afterLastCL '@' (lowerCL email.data) == d.data)

/-- First-match lookup in the `EMAIL_PRIORITY` association list, as the
`for prefix, priority in EMAIL_PRIORITY.items()` loop iterates it. -/
def firstMatchPriority (lp : List Char) : List (String × Nat) → Nat
  | [] => DEFAULT_EMAIL_PRIORITY
  | (k, v) :: rest => if containsCL k.data lp then v else firstMatchPriority lp rest

/-- scraper.py `_get_email_priority`: the part before the first `@`,
lowercased, looked up by keyword substring. -/
def get_email_priority (email : String) : Nat :=
  firstMatchPriority (takeBeforeCL '@' (lowerCL email.data)) EMAIL_PRIORITY

/- ------------------------------------------------------------------ -/
/- scraper.py: extract_emails                                          -/
/- ------------------------------------------------------------------ -/

/-- scraper.py dataclass `EmailResult` (the `source_page` field, unused by
`extract_emails`, is omitted). -/
structure EmailResult where
  email : String
  priority : Nat
  is_free_provider : Bool
deriving Repr, DecidableEq

/-- Case-insensitive deduplication preserving first-seen order (the
`seen` / `unique_emails` loop of `extract_emails`); `seen` accumulates the
lowercased forms already kept. -/
def dedupEmailsAux (seen : List (List Char)) : List (List Char) → List (List Char)
  | [] => []
  | e :: rest =>
    if seen.contains (lowerCL e) then dedupEmailsAux seen rest
    else e :: dedupEmailsAux (lowerCL e :: seen) rest

/-- Python-tuple comparison on the sort key `(r.priority, r.is_free_provider)`
used by `extract_emails` (`False < True` for booleans). -/
def emailKeyLe (a b : EmailResult) : Bool :=
  a.priority < b.priority
    || (a.priority == b.priority && (!a.is_free_provider || b.is_free_provider))

/-- Stable insertion into a sorted list: the new element goes before the
first element it compares `le` to, so equal keys keep first-come order. -/
def orderedInsert (le : α → α → Bool) (x : α) : List α → List α
  | [] => [x]
  | y :: ys => if le x y then x :: y :: ys else y :: orderedInsert le x ys

/-- Stable insertion sort; agrees with Python `list.sort` (stable) on any
total preorder given as a boolean `le`. -/
def insertionSort (le : α → α → Bool) : List α → List α
  | [] => []
  | x :: xs => orderedInsert le x (insertionSort le xs)

/-- The surviving candidate list of `extract_emails` before its final sort:
regex scan, case-insensitive dedup preserving first-seen order, junk filter,
then priority/free-provider classification. -/
def email_candidates (html : String) : List EmailResult :=
  let raw := emailFindall html.data
  let uniq := dedupEmailsAux [] raw
  uniq.filterMap (fun e =>
    if is_junk_email (String.mk e) then none
    else some { email := String.mk (lowerCL e),
                priority := get_email_priority (String.mk e),
                is_free_provider := is_free_provider (String.mk e) })

/-- scraper.py `extract_emails`: the surviving candidates, stably sorted by
`(priority, is_free_provider)` (Python `list.sort` with that key). -/
def extract_emails (html : String) : List EmailResult :=
  insertionSort emailKeyLe (email_candidates html)

/- ------------------------------------------------------------------ -/
/- scraper.py: detect_whatsapp                                         -/
/- ------------------------------------------------------------------ -/

/-- scraper.py dataclass `WhatsAppResult`. -/
structure WhatsAppResult where
  found : Bool := false
  confidence : String := "none"
  phone : Option String := none
deriving Repr, DecidableEq

/-- Anchored match of config.py `WHATSAPP_PHONE_REGEX`, namely
`wa\.me/(\+?\d{7,15})`, returning capture group 1: after the literal
`wa.me/` an optional `+` followed by a maximal digit run (at least 7 digits,
greedily capped at 15).  When the `+` is present but followed by fewer than
7 digits the `\+?` backtracks to empty, where the `+` itself fails `\d`,
so the whole position fails. -/
def phoneMatchAt (l : List Char) : Option (List Char) :=
  if startsWithCL "wa.me/".data l then
    let r := l.drop 6
    if startsWithCL "+".data r then
      let d := (r.drop 1).takeWhile Char.isDigit
      if 7 ≤ d.length then some ('+' :: d.take 15) else none
    else
      let d := r.takeWhile Char.isDigit
      if 7 ≤ d.length then some (d.take 15) else none
  else none

/-- Fuelled `re.search(WHATSAPP_PHONE_REGEX, html)`: leftmost position at
which `phoneMatchAt` succeeds. -/
def phoneSearchAux : Nat → List Char → Option (List Char)
  | 0, _ => none
  | _ + 1, [] => none
  | fuel + 1, l@(_ :: rest) =>
    match phoneMatchAt l with
    | some p => some p
    | none => phoneSearchAux fuel rest

/-- The phone-number extraction attempted on a definitive match (performed on
the original, non-lowercased HTML, exactly as the code does). -/
def phoneSearch (html : String) : Option String :=
  (phoneSearchAux html.data.length html.data).map String.mk

/-- Case-insensitive Python substring test `pattern.lower() in html_lower`
for a configured pattern against the lowercased page text. -/
def patternHit (htmlLower : List Char) (p : String) : Bool :=
  containsCL (lowerCL p.data) htmlLower

/-- scraper.py `detect_whatsapp`: three confidence tiers checked in strict
precedence order, first match winning.  Each tier's loop returns the same
result for every pattern of the tier (the phone extraction scans the whole
HTML, not the particular matched pattern), so the per-tier loops collapse to
an `any` test. -/
def detect_whatsapp (html : String) : WhatsAppResult :=
  let htmlLower := lowerCL html.data
  if WHATSAPP_DEFINITIVE_PATTERNS.any (patternHit htmlLower) then
    { found := true, confidence := "definitive", phone := phoneSearch html }
  else if WHATSAPP_WIDGET_PATTERNS.any (patternHit htmlLower) then
    { found := true, confidence := "widget" }
  else if WHATSAPP_WEAK_PATTERNS.any (patternHit htmlLower) then
    { found := true, confidence := "maybe" }
  else
    { found := false, confidence := "none" }

/- ------------------------------------------------------------------ -/
/- scraper.py: platform and password-gate checks                       -/
/- ------------------------------------------------------------------ -/

/-- scraper.py `_is_shopify_store` marker substrings. -/
def SHOPIFY_INDICATORS : List String :=
  ["cdn.shopify.com", "shopify.com/s/", "Shopify.theme", "myshopify.com",
   "shopify-section"]

/-- scraper.py `_is_shopify_store`. -/
def is_shopify_store (html : String) : Bool :=
  SHOPIFY_INDICATORS.any (patternHit (lowerCL html.data))

/-- scraper.py `_is_password_protected` marker substrings (already
lowercase in the source). -/
def PASSWORD_INDICATORS : List String :=
  ["password-page", "storefront-password", "opening soon",
   "store is not available"]

/-- scraper.py `_is_password_protected`. -/
def is_password_protected (html : String) : Bool :=
  PASSWORD_INDICATORS.any (fun p => containsCL p.data (lowerCL html.data))

/- ------------------------------------------------------------------ -/
/- scraper.py: scrape_store (the per-domain orchestrator)              -/
/- ------------------------------------------------------------------ -/

/-- scraper.py dataclass `ScrapeResult`. -/
structure ScrapeResult where
  domain : String
  store_name : String := ""
  email : Option String := none
  email_priority : Nat := 99
  email_is_free_provider : Bool := false
  has_whatsapp : Bool := false
  whatsapp_confidence : String := "none"
  whatsapp_phone : Option String := none
  scrape_status : String := "pending"
  error : String := ""
  scraped_at : String := ""
deriving Repr, DecidableEq

/-- Environment of external collaborators for one `scrape_store` run.
All `requests`-based page fetches made during the run are numbered in call
order (`fetch k url` is the result of the `k`-th fetch), which makes the
retry loop's repeated attempts on the same URL observable.  `render` is the
Playwright collaborator, `extract_name` stands for the BeautifulSoup-based
`_extract_store_name` (an external HTML parser), and `now_ts` is the
timestamp `datetime.now(...).isoformat()` taken at the start of the run. -/
structure ScrapeEnv where
  fetch : Nat → String → Option String
  render : String → Option String
  extract_name : String → String
  playwright_enabled : Bool
  now_ts : String

/-- Python truthiness of a fetched page: `if html:` treats both `None` and
the empty string as failure. -/
def truthyPage : Option String → Option String
  | none => none
  | some s => if s.data.isEmpty then none else some s

/-- One numbered, truthiness-collapsed fetch. -/
def fetchT (env : ScrapeEnv) (k : Nat) (url : String) : Option String :=
  truthyPage (env.fetch k url)

/-- The homepage retry loop of `scrape_store`: up to the given number of
attempts on the same URL, stopping at the first truthy page.  Returns the
page (if any), the next free call number, and the list of URLs fetched. -/
def fetchHomeLoop (env : ScrapeEnv) (url : String) :
    Nat → Nat → Option String × Nat × List String
  | _, 0 => (none, 0, [])
  | k, n + 1 =>
    match fetchT env k url with
    | some h => (some h, k + 1, [url])
    | none =>
      let (r, c, t) := fetchHomeLoop env url (k + 1) n
      (r, c, url :: t)

/-- The contact-page collection loop of `scrape_store`: fetch every
configured path relative to the base URL, keeping the truthy pages in order;
a missing page contributes nothing.  Returns collected pages, next call
number and the fetch trace. -/
def fetchContacts (env : ScrapeEnv) (baseUrl : String) :
    Nat → List String → List String × Nat × List String
  | k, [] => ([], k, [])
  | k, p :: ps =>
    let u := baseUrl ++ p
    let h := fetchT env k u
    let (hs, c, t) := fetchContacts env baseUrl (k + 1) ps
    (h.toList ++ hs, c, u :: t)

/-- The Playwright fallback loop of `scrape_store` (step 7): for each URL in
order, render it; a truthy rendered page with email candidates ends the loop
with those candidates (the `break`); otherwise, when the WhatsApp signal is
not yet found, the detector is re-run on the rendered page and its result
kept if it found something.  Returns the candidate list (empty if none
found), the final WhatsApp result and the list of URLs rendered. -/
def pwFallbackLoop (render : String → Option String) :
    List String → WhatsAppResult → List EmailResult × WhatsAppResult × List String
  | [], wa => ([], wa, [])
  | u :: us, wa =>
    match truthyPage (render u) with
    | none =>
      let (e, w, t) := pwFallbackLoop render us wa
      (e, w, u :: t)
    | some h =>
      let pe := extract_emails h
      if pe.isEmpty then
        let wa2 :=
          if wa.found then wa
          else
            let pwWa := detect_whatsapp h
            if pwWa.found then pwWa else wa
        let (e, w, t) := pwFallbackLoop render us wa2
        (e, w, u :: t)
      else (pe, wa, [u])

/-- scraper.py `scrape_store`.  Returns the `ScrapeResult` together with the
trace of `requests` fetch URLs and the trace of Playwright render URLs, in
call order. -/
def scrape_store (env : ScrapeEnv) (domain : String)
    (use_playwright_fallback : Bool) :
    ScrapeResult × List String × List String :=
  let baseUrl := "https://" ++ domain
  let (home, c1, t1) := fetchHomeLoop env baseUrl 0 SCRAPE_MAX_RETRIES
  match home with
  | none =>
    ({ domain := domain, scrape_status := "failed",
       error := "homepage_unreachable", scraped_at := env.now_ts }, t1, [])
  | some h =>
    if !is_shopify_store h then
      ({ domain := domain, scrape_status := "skipped", error := "not_shopify",
         scraped_at := env.now_ts }, t1, [])
    else if is_password_protected h then
      ({ domain := domain, scrape_status := "skipped",
         error := "password_protected", scraped_at := env.now_ts }, t1, [])
    else
      let name := env.extract_name h
      let (chs, _, t2) := fetchContacts env baseUrl c1 CONTACT_PAGE_PATHS
      let combined := String.intercalate "\n" (h :: chs)
      let bestEmails := extract_emails combined
      let bestWa := detect_whatsapp combined
      let (bestEmails2, bestWa2, t3) :=
        if bestEmails.isEmpty ∧ use_playwright_fallback ∧ env.playwright_enabled
        then
          let pwUrls := baseUrl ::
            (match CONTACT_PAGE_PATHS with
             | [] => []
             | p :: _ => [baseUrl ++ p])
          pwFallbackLoop env.render pwUrls bestWa
        else (bestEmails, bestWa, [])
      let base : ScrapeResult :=
        { domain := domain, store_name := name,
          has_whatsapp := bestWa2.found,
          whatsapp_confidence := bestWa2.confidence,
          whatsapp_phone := bestWa2.phone,
          scrape_status := "success", scraped_at := env.now_ts }
      let result :=
        match bestEmails2 with
        | [] => base
        | top :: _ =>
          { base with email := some top.email,
                      email_priority := top.priority,
                      email_is_free_provider := top.is_free_provider }
      (result, t1 ++ t2, t3)

/- ------------------------------------------------------------------ -/
/- output.py: lead sorting                                             -/
/- ------------------------------------------------------------------ -/

/-- Value of the `email_priority` cell of a lead row.  Rows built by
`merge_results` carry an int (or the empty string when the row has no
email); rows reloaded from CSV carry the priority as a string; the key may
also be missing entirely (`row.get("email_priority", 99)`). -/
inductive PrioVal where
  | pInt (n : Int)
  | pStr (s : String)
  | pMissing
deriving Repr, DecidableEq

/-- Are all characters ASCII digits, and is the list nonempty? -/
def allDigits (l : List Char) : Bool := !l.isEmpty && l.all Char.isDigit

/-- Digit-list to number (most significant first). -/
def digitsToNat (l : List Char) : Nat :=
  l.foldl (fun acc c => acc * 10 + (c.toNat - 48)) 0

/-- Python `int(s)` on a plain decimal string: optional surrounding
whitespace, an optional sign, then one or more digits; anything else raises
`ValueError`, modelled as `none`.  (Python also accepts digit-group
underscores and non-ASCII digits; those exotic forms are not modelled.) -/
def pyInt (s : String) : Option Int :=
  match trimCL s.data with
  | '-' :: ds => if allDigits ds then some (-(digitsToNat ds : Int)) else none
  | '+' :: ds => if allDigits ds then some (digitsToNat ds : Int) else none
  | ds => if allDigits ds then some (digitsToNat ds : Int) else none

/-- The priority coercion of `_lead_sort_key`: a missing key defaults to 99;
a string is coerced with `int(...)` when nonempty, and both the empty string
and a `ValueError` fall back to 99. -/
def coercePriority : PrioVal → Int
  | .pMissing => 99
  | .pInt n => n
  | .pStr s =>
    if s.data.isEmpty then 99
    else match pyInt s with
         | some n => n
         | none => 99

/-- A lead row as consumed by `_lead_sort_key` (the dict fields the sort key
reads; a missing `email` cell is the empty string, as `merge_results`
produces). -/
structure LeadRow where
  domain : String
  email : String
  has_whatsapp : Bool
  email_verified : String
  email_priority : PrioVal
deriving Repr, DecidableEq

/-- output.py `_lead_sort_key`. -/
def lead_sort_key (row : LeadRow) : Nat × Int × String :=
  let hasWa := row.has_whatsapp
  let hasEmail := !row.email.data.isEmpty
  let isVerified := row.email_verified == "safe"
  let ep := coercePriority row.email_priority
  let tier : Nat :=
    if hasWa && hasEmail && isVerified then 0
    else if hasWa && hasEmail then 1
    else if hasWa then 2
    else if hasEmail && isVerified then 3
    else if hasEmail then 4
    else 5
  (tier, ep, row.domain)

/-- Python-tuple comparison of two sort keys (lexicographic `≤`). -/
def keyLe (a b : Nat × Int × String) : Bool :=
  decide (a.1 < b.1)
    || (a.1 == b.1 &&
        (decide (a.2.1 < b.2.1)
          || (a.2.1 == b.2.1 && decide (a.2.2 ≤ b.2.2))))

/-- Row comparison by `_lead_sort_key`. -/
def leadLe (a b : LeadRow) : Bool := keyLe (lead_sort_key a) (lead_sort_key b)

/-- output.py `sort_leads` (Python `sorted` is a stable sort by the key). -/
def sort_leads (rows : List LeadRow) : List LeadRow :=
  insertionSort leadLe rows

/- ------------------------------------------------------------------ -/
/- discovery.py: normalize_domain                                      -/
/- ------------------------------------------------------------------ -/

/-- The URL with the default scheme prepended when no explicit `http(s)://`
scheme is present (the first step of `normalize_domain`). -/
def withScheme (url : String) : List Char :=
  if startsWithCL "http://".data url.data || startsWithCL "https://".data url.data
  then url.data else "https://".data ++ url.data

/-- The characters after the scheme's `//`. -/
def afterScheme (url : String) : List Char :=
  let u := withScheme url
  if startsWithCL "http://".data u then u.drop 7 else u.drop 8

/-- `urlparse(...).netloc`: the characters after `//` up to `/`, `?` or `#`. -/
def netlocOf (url : String) : List Char :=
  (afterScheme url).takeWhile (fun c => !(c == '/' || c == '?' || c == '#'))

/-- The host as `normalize_domain` sees it right before the `www.` strip:
`netloc or path.split("/")[0]`, lowercased and whitespace-stripped.  (When
the netloc is empty the parsed path starts at the character that ended it,
so the first path segment is what the code falls back to.) -/
def parsedHost (url : String) : List Char :=
  let rest := afterScheme url
  let netloc := netlocOf url
  let path := (rest.drop netloc.length).takeWhile (fun c => !(c == '?' || c == '#'))
  let d0 := if netloc.isEmpty then path.takeWhile (· != '/') else netloc
  trimCL (lowerCL d0)

/-- The host after the `www.` strip of `normalize_domain`, which removes
exactly one leading `www.` when present. -/
def strippedHost (url : String) : List Char :=
  if startsWithCL "www.".data (parsedHost url) then (parsedHost url).drop 4
  else parsedHost url

/-- The candidate domain right before validation: the host with one leading
`www.` stripped and a `:port` suffix removed (`domain.split(":")[0]`). -/
def domainKey (url : String) : List Char := takeBeforeCL ':' (strippedHost url)

/-- discovery.py `normalize_domain`, following the code line by line:
prepend `https://` unless an explicit `http(s)://` scheme is present; take
`urlparse(...).netloc`, falling back to `path.split("/")[0]` when the netloc
is empty; mismatched square brackets in the netloc make `urlparse` raise,
which the code catches into `None`; lowercase; strip; drop one leading
`www.` (`strippedHost`); drop a `:port` suffix; finally require a dot and a
length of at least 4. -/
def normalize_domain (url : String) : Option String :=
  if url.data.isEmpty then none
  else if (('[' ∈ netlocOf url) ∧ (']' ∉ netlocOf url))
        ∨ ((']' ∈ netlocOf url) ∧ ('[' ∉ netlocOf url)) then none
  else if ('.' ∈ domainKey url) ∧ 4 ≤ (domainKey url).length
       then some (String.mk (domainKey url)) else none

/- ------------------------------------------------------------------ -/
/- discovery.py: SeenDomains (the dedup ledger)                        -/
/- ------------------------------------------------------------------ -/

/-- The in-memory ledger `SeenDomains.domains` is a Python set of strings. -/
def seen_add (s : Finset String) (d : String) : Finset String := insert d s

/-- `SeenDomains.__len__` / the spec's `size()`. -/
def seen_size (s : Finset String) : Nat := s.card

/-- `SeenDomains.is_new`. -/
def seen_is_new (s : Finset String) (d : String) : Bool := decide (d ∉ s)

/-- `SeenDomains.save` writes `sorted(self.domains)` to the file. -/
def seen_save (s : Finset String) : List String := s.sort (· ≤ ·)

/-- `SeenDomains._load` turns the stored list back into a set. -/
def seen_load (l : List String) : Finset String := l.toFinset

/- ------------------------------------------------------------------ -/
/- discovery.py: discover_stores                                       -/
/- ------------------------------------------------------------------ -/

/-- discovery.py `DorkState`: the persisted discovery cursor (the
`last_run` timestamp is not modelled; it plays no role in the claims). -/
structure DorkState where
  query_index : Nat
  total_discovered : Nat
deriving Repr, DecidableEq

/-- The search backend for one run: `search i` is the URL list the engine
returns for the `i`-th query of the generated query list. -/
structure DiscEnv where
  search : Nat → List String

/-- Everything observable about one `discover_stores` run: its return value,
the state and ledger afterwards, the indices of the queries it executed, and
whether it wrote the cursor file, the ledger file and the discovered-stores
file. -/
structure DiscOutcome where
  new_domains : List String
  state : DorkState
  seen : Finset String
  searched : List Nat
  saved_state : Bool
  saved_seen : Bool
  saved_stores : Bool
deriving DecidableEq

/-- discovery.py `_extract_domains_from_urls`. -/
def extract_domains_from_urls (urls : List String) : List String :=
  urls.filterMap normalize_domain

/-- The per-domain dedup loop inside `discover_stores`: keep a domain when
`seen.is_new(domain)`, adding it to the ledger and to the new-domain list. -/
def addNewDomains (seen : Finset String) : List String → Finset String × List String
  | [] => (seen, [])
  | d :: ds =>
    if d ∈ seen then addNewDomains seen ds
    else
      let (s, ns) := addNewDomains (insert d seen) ds
      (s, d :: ns)

/-- The query loop of `discover_stores` over the batch indices. -/
def runQueries (env : DiscEnv) (seen : Finset String) :
    List Nat → Finset String × List String
  | [] => (seen, [])
  | i :: is =>
    let domains := extract_domains_from_urls (env.search i)
    let (s1, n1) := addNewDomains seen domains
    let (s2, n2) := runQueries env s1 is
    (s2, n1 ++ n2)

/-- discovery.py `discover_stores`, abstracted over the generated query list
(of length `totalQueries`) and the batch size (`max_queries or
DORK_BATCH_SIZE`).  The exhausted check precedes the dry-run check; both
early returns perform no search and no save. -/
def discover_stores (env : DiscEnv) (totalQueries batchSize : Nat)
    (dryRun : Bool) (st : DorkState) (seen : Finset String) : DiscOutcome :=
  if totalQueries ≤ st.query_index then
    { new_domains := [], state := st, seen := seen, searched := [],
      saved_state := false, saved_seen := false, saved_stores := false }
  else if dryRun then
    { new_domains := [], state := st, seen := seen, searched := [],
      saved_state := false, saved_seen := false, saved_stores := false }
  else
    let batchEnd := min (st.query_index + batchSize) totalQueries
    let idxs := List.range' st.query_index (batchEnd - st.query_index)
    let res := runQueries env seen idxs
    { new_domains := res.2,
      state := { query_index := batchEnd,
                 total_discovered := st.total_discovered + res.2.length },
      seen := res.1, searched := idxs,
      saved_state := true, saved_seen := true, saved_stores := true }

/-- Iterated non-dry batch runs from a fresh cursor (position 0, empty
ledger), each run consuming the next batch; `envs k` is the search backend
the `k`-th run happens to see. -/
def runsFrom (envs : Nat → DiscEnv) (totalQueries batchSize : Nat) :
    Nat → DorkState × Finset String
  | 0 => ({ query_index := 0, total_discovered := 0 }, ∅)
  | k + 1 =>
    let p := runsFrom envs totalQueries batchSize k
    let r := discover_stores (envs k) totalQueries batchSize false p.1 p.2
    (r.state, r.seen)

/- ------------------------------------------------------------------ -/
/- Specification-side definitions and concrete environments used by    -/
/- the claim theorems                                                  -/
/- ------------------------------------------------------------------ -/

/-- Capture group 1 of `wa\.me/(\+?\d{7,15})`: an optional plus then 7 to 15
digits. -/
def phoneShape (p : List Char) : Prop :=
  ∃ d : List Char, (p = d ∨ p = '+' :: d) ∧ d.all Char.isDigit = true
    ∧ 7 ≤ d.length ∧ d.length ≤ 15

/-- Priority of an address as the specification words it: the lowest
configured priority number whose keyword appears as a substring of the
local part, or the configured default when no keyword matches. -/
def spec_min_priority (email : String) : Nat :=
  match ((EMAIL_PRIORITY.filter
      (fun p => containsCL p.1.data (takeBeforeCL '@' (lowerCL email.data)))).map (·.2)).min? with
  | some m => m
  | none => DEFAULT_EMAIL_PRIORITY

/-- Environment whose fetcher never returns a page. -/
def envAllFail : ScrapeEnv :=
  { fetch := fun _ _ => none, render := fun _ => none,
    extract_name := fun _ => "", playwright_enabled := true, now_ts := "t0" }

/-- Environment whose fetcher returns a page with no platform marker. -/
def envNotShopify : ScrapeEnv :=
  { envAllFail with fetch := fun _ _ => some "a plain page" }

/-- Environment for the C9 counterexample: the home page is a marker-bearing
page with no email and no messaging signal, every contact page is missing,
and the rendered home page contains both an email address and a definitive
wa.me link. -/
def envRenderBoth : ScrapeEnv :=
  { fetch := fun k _ => if k == 0 then some "x cdn.shopify.com x" else none,
    render := fun u => if u == "https://s.co.za" then some "a@b.za wa.me/1234567" else none,
    extract_name := fun _ => "", playwright_enabled := true, now_ts := "t0" }

/-- The tier sequence exactly as claim C4 words it. -/
def tier_spec (row : LeadRow) : Nat :=
  if row.has_whatsapp = true ∧ row.email ≠ "" ∧ row.email_verified = "safe" then 0
  else if row.has_whatsapp = true ∧ row.email ≠ "" then 1
  else if row.has_whatsapp = true then 2
  else if row.email ≠ "" ∧ row.email_verified = "safe" then 3
  else if row.email ≠ "" then 4
  else 5

/-- Priority coercion as claim C4 words it: a numeric-looking string is
coerced; a non-numeric string falls back to the configured default priority
(`DEFAULT_EMAIL_PRIORITY`); the empty string is the absent-email sentinel. -/
def claim_coerce_priority : PrioVal → Int
  | .pMissing => 99
  | .pInt n => n
  | .pStr s =>
    if s.data.isEmpty then 99
    else match pyInt s with
         | some n => n
         | none => (DEFAULT_EMAIL_PRIORITY : Int)

/-- The sort key dictated by claim C4's wording. -/
def claim_lead_sort_key (row : LeadRow) : Nat × Int × String :=
  (tier_spec row, claim_coerce_priority row.email_priority, row.domain)

/-- `sort_leads` as claim C4's wording dictates it. -/
def claim_sort_leads (rows : List LeadRow) : List LeadRow :=
  insertionSort (fun a b => keyLe (claim_lead_sort_key a) (claim_lead_sort_key b)) rows

/-- A row whose priority cell is a non-numeric string. -/
def rowNonNumeric : LeadRow :=
  { domain := "a.co.za", email := "x@y.com", has_whatsapp := false,
    email_verified := "", email_priority := .pStr "abc" }

/-- A row whose priority cell is the integer 50. -/
def rowFifty : LeadRow :=
  { domain := "b.co.za", email := "w@v.com", has_whatsapp := false,
    email_verified := "", email_priority := .pInt 50 }

/- ------------------------------------------------------------------ -/
/- Helper lemmas: characters and membership                            -/
/- ------------------------------------------------------------------ -/

theorem lowerChar_toNat_of_upper {c : Char} (h : 65 ≤ c.toNat ∧ c.toNat ≤ 90) :
    (lowerChar c).toNat = c.toNat + 32 := by
  have hv : (c.toNat + 32).isValidChar := by
    unfold Nat.isValidChar
    omega
  unfold lowerChar
  rw [if_pos h]
  simp [Char.ofNat, hv]
  rfl

theorem lowerChar_idem (c : Char) : lowerChar (lowerChar c) = lowerChar c := by
  by_cases h : 65 ≤ c.toNat ∧ c.toNat ≤ 90
  · have ht := lowerChar_toNat_of_upper h
    unfold lowerChar
    rw [if_pos h]
    rw [if_neg]
    unfold lowerChar at ht
    rw [if_pos h] at ht
    rw [ht]
    omega
  · unfold lowerChar
    rw [if_neg h, if_neg h]

theorem lowerChar_eq_dot {c : Char} (h : lowerChar c = '.') : c = '.' := by
  by_cases hc : 65 ≤ c.toNat ∧ c.toNat ≤ 90
  · exfalso
    have ht := lowerChar_toNat_of_upper hc
    rw [h] at ht
    have h46 : ('.' : Char).toNat = 46 := rfl
    omega
  · unfold lowerChar at h
    rwa [if_neg hc] at h

theorem lowerCL_idem (l : List Char) : lowerCL (lowerCL l) = lowerCL l := by
  unfold lowerCL
  rw [List.map_map]
  apply List.map_congr_left
  intro c _
  exact lowerChar_idem c

theorem mem_of_mem_takeWhile {p : α → Bool} {x : α} :
    ∀ {l : List α}, x ∈ l.takeWhile p → x ∈ l := by
  intro l
  induction l with
  | nil => simp
  | cons a as ih =>
    intro h
    rw [List.takeWhile_cons] at h
    by_cases hp : p a = true
    · rw [if_pos hp] at h
      rcases List.mem_cons.mp h with h1 | h1
      · simp [h1]
      · exact List.mem_cons_of_mem _ (ih h1)
    · rw [if_neg hp] at h
      simp at h

theorem sat_of_mem_takeWhile {p : α → Bool} {x : α} :
    ∀ {l : List α}, x ∈ l.takeWhile p → p x = true := by
  intro l
  induction l with
  | nil => simp
  | cons a as ih =>
    intro h
    rw [List.takeWhile_cons] at h
    by_cases hp : p a = true
    · rw [if_pos hp] at h
      rcases List.mem_cons.mp h with h1 | h1
      · rwa [h1]
      · exact ih h1
    · rw [if_neg hp] at h
      simp at h

theorem mem_of_mem_dropWhile {p : α → Bool} {x : α} :
    ∀ {l : List α}, x ∈ l.dropWhile p → x ∈ l := by
  intro l
  induction l with
  | nil => simp
  | cons a as ih =>
    intro h
    rw [List.dropWhile_cons] at h
    by_cases hp : p a = true
    · rw [if_pos hp] at h
      exact List.mem_cons_of_mem _ (ih h)
    · rw [if_neg hp] at h
      exact h

theorem mem_of_mem_trimCL {x : Char} {l : List Char} (h : x ∈ trimCL l) : x ∈ l := by
  unfold trimCL at h
  rw [List.mem_reverse] at h
  have h2 := mem_of_mem_dropWhile h
  rw [List.mem_reverse] at h2
  exact mem_of_mem_dropWhile h2

theorem mem_lowerCL {x : Char} {l : List Char} (h : x ∈ lowerCL l) :
    ∃ c ∈ l, lowerChar c = x := by
  unfold lowerCL at h
  rcases List.mem_map.mp h with ⟨c, hc, he⟩
  exact ⟨c, hc, he⟩

/- ------------------------------------------------------------------ -/
/- Helper lemmas: prefixes                                             -/
/- ------------------------------------------------------------------ -/

theorem startsWithCL_decomp {n : List Char} :
    ∀ {l : List Char}, startsWithCL n l = true → l = n ++ l.drop n.length := by
  induction n with
  | nil => intro l _; simp
  | cons a as ih =>
    intro l h
    cases l with
    | nil => simp [startsWithCL] at h
    | cons b bs =>
      simp only [startsWithCL, Bool.and_eq_true, beq_iff_eq] at h
      obtain ⟨rfl, h2⟩ := h
      have := ih h2
      simp only [List.length_cons, List.drop_succ_cons, List.cons_append]
      exact congrArg _ this

theorem startsWithCL_iff_take {n : List Char} :
    ∀ {l : List Char}, startsWithCL n l = true ↔ l.take n.length = n := by
  induction n with
  | nil => intro l; simp [startsWithCL]
  | cons a as ih =>
    intro l
    cases l with
    | nil => simp [startsWithCL]
    | cons b bs =>
      simp only [startsWithCL, Bool.and_eq_true, beq_iff_eq, List.length_cons,
        List.take_succ_cons, List.cons.injEq]
      constructor
      · rintro ⟨rfl, h2⟩
        exact ⟨rfl, ih.mp h2⟩
      · rintro ⟨rfl, h2⟩
        exact ⟨rfl, ih.mpr h2⟩

/- ------------------------------------------------------------------ -/
/- Helper lemmas: stable insertion sort                                -/
/- ------------------------------------------------------------------ -/

theorem mem_orderedInsert {le : α → α → Bool} {x z : α} :
    ∀ {l : List α}, z ∈ orderedInsert le x l ↔ z = x ∨ z ∈ l := by
  intro l
  induction l with
  | nil => simp [orderedInsert]
  | cons y ys ih =>
    simp only [orderedInsert]
    by_cases hc : le x y = true
    · rw [if_pos hc]
      simp [List.mem_cons]
    · rw [if_neg hc]
      simp only [List.mem_cons, ih]
      tauto

theorem perm_orderedInsert (le : α → α → Bool) (x : α) :
    ∀ (l : List α), List.Perm (orderedInsert le x l) (x :: l) := by
  intro l
  induction l with
  | nil => simp [orderedInsert]
  | cons y ys ih =>
    simp only [orderedInsert]
    by_cases hc : le x y = true
    · rw [if_pos hc]
    · rw [if_neg hc]
      exact List.Perm.trans (List.Perm.cons y ih) (List.Perm.swap x y ys)

theorem perm_insertionSort (le : α → α → Bool) :
    ∀ (l : List α), List.Perm (insertionSort le l) l := by
  intro l
  induction l with
  | nil => simp [insertionSort]
  | cons x xs ih =>
    simp only [insertionSort]
    exact List.Perm.trans (perm_orderedInsert le x _) (List.Perm.cons x ih)

theorem sorted_orderedInsert {le : α → α → Bool}
    (htot : ∀ a b, le a b = true ∨ le b a = true)
    (htrans : ∀ a b c, le a b = true → le b c = true → le a c = true)
    (x : α) :
    ∀ {l : List α}, l.Pairwise (fun a b => le a b = true) →
      (orderedInsert le x l).Pairwise (fun a b => le a b = true) := by
  intro l
  induction l with
  | nil => simp [orderedInsert]
  | cons y ys ih =>
    intro hs
    rw [List.pairwise_cons] at hs
    obtain ⟨hy, hys⟩ := hs
    simp only [orderedInsert]
    by_cases hc : le x y = true
    · rw [if_pos hc]
      rw [List.pairwise_cons]
      constructor
      · intro z hz
        rcases List.mem_cons.mp hz with rfl | hz2
        · exact hc
        · exact htrans x y z hc (hy z hz2)
      · rw [List.pairwise_cons]
        exact ⟨hy, hys⟩
    · rw [if_neg hc]
      rw [List.pairwise_cons]
      constructor
      · intro z hz
        rcases mem_orderedInsert.mp hz with rfl | hz2
        · rcases htot y z with h | h
          · exact h
          · rw [h] at hc
            exact absurd rfl hc
        · exact hy z hz2
      · exact ih hys

theorem sorted_insertionSort {le : α → α → Bool}
    (htot : ∀ a b, le a b = true ∨ le b a = true)
    (htrans : ∀ a b c, le a b = true → le b c = true → le a c = true) :
    ∀ (l : List α), (insertionSort le l).Pairwise (fun a b => le a b = true) := by
  intro l
  induction l with
  | nil => simp [insertionSort]
  | cons x xs ih =>
    simp only [insertionSort]
    exact sorted_orderedInsert htot htrans x ih

/- ------------------------------------------------------------------ -/
/- Helper lemmas: the email comparison is a total preorder             -/
/- ------------------------------------------------------------------ -/

theorem emailKeyLe_total (a b : EmailResult) :
    emailKeyLe a b = true ∨ emailKeyLe b a = true := by
  unfold emailKeyLe
  rcases Nat.lt_trichotomy a.priority b.priority with h | h | h
  · left
    simp [h]
  · cases hfa : a.is_free_provider <;> cases hfb : b.is_free_provider <;>
      simp [h, hfa, hfb]
  · right
    simp [h]

theorem emailKeyLe_trans (a b c : EmailResult)
    (h1 : emailKeyLe a b = true) (h2 : emailKeyLe b c = true) :
    emailKeyLe a c = true := by
  unfold emailKeyLe at *
  simp only [Bool.or_eq_true, Bool.and_eq_true, decide_eq_true_eq, beq_iff_eq,
    Bool.not_eq_true'] at *
  cases hfa : a.is_free_provider <;> cases hfb : b.is_free_provider <;>
    cases hfc : c.is_free_provider <;> simp_all <;> omega

/- ------------------------------------------------------------------ -/
/- Helper lemmas: first keyword match equals the minimum matching      -/
/- priority when the association list has nondecreasing values         -/
/- ------------------------------------------------------------------ -/

theorem foldl_min_eq {v : Nat} :
    ∀ {vs : List Nat}, (∀ x ∈ vs, v ≤ x) → vs.foldl min v = v := by
  intro vs
  induction vs generalizing v with
  | nil => intro _; rfl
  | cons x xs ih =>
    intro h
    simp only [List.foldl_cons]
    have hvx : min v x = v := Nat.min_eq_left (h x (by simp))
    rw [hvx]
    exact ih (fun y hy => h y (by simp [hy]))

theorem firstMatch_eq_min (lp : List Char) :
    ∀ (l : List (String × Nat)),
      l.Pairwise (fun a b => a.2 ≤ b.2) →
      firstMatchPriority lp l =
        match ((l.filter (fun p => containsCL p.1.data lp)).map (·.2)).min? with
        | some m => m
        | none => DEFAULT_EMAIL_PRIORITY := by
  intro l
  induction l with
  | nil => intro _; rfl
  | cons kv rest ih =>
    intro hp
    rw [List.pairwise_cons] at hp
    obtain ⟨hle, hrest⟩ := hp
    by_cases hc : containsCL kv.1.data lp = true
    · have hmatch : firstMatchPriority lp (kv :: rest) = kv.2 := by
        simp [firstMatchPriority, hc]
      rw [hmatch]
      have hfil : (kv :: rest).filter (fun p => containsCL p.1.data lp)
          = kv :: rest.filter (fun p => containsCL p.1.data lp) := by
        simp [List.filter_cons, hc]
      rw [hfil]
      simp only [List.map_cons]
      have hmin : (kv.2 :: (rest.filter (fun p => containsCL p.1.data lp)).map (·.2)).min?
          = some (((rest.filter (fun p => containsCL p.1.data lp)).map (·.2)).foldl min kv.2) := rfl
      rw [hmin]
      have : ((rest.filter (fun p => containsCL p.1.data lp)).map (·.2)).foldl min kv.2 = kv.2 := by
        apply foldl_min_eq
        intro x hx
        rcases List.mem_map.mp hx with ⟨q, hq, rfl⟩
        exact hle q (List.mem_of_mem_filter hq)
      rw [this]
    · have hmatch : firstMatchPriority lp (kv :: rest) = firstMatchPriority lp rest := by
        simp [firstMatchPriority, hc]
      have hfil : (kv :: rest).filter (fun p => containsCL p.1.data lp)
          = rest.filter (fun p => containsCL p.1.data lp) := by
        simp [List.filter_cons, hc]
      rw [hmatch, hfil]
      exact ih hrest

/- ------------------------------------------------------------------ -/
/- Helper lemmas: the lead comparison is a total preorder              -/
/- ------------------------------------------------------------------ -/

theorem keyLe_total (a b : Nat × Int × String) :
    keyLe a b = true ∨ keyLe b a = true := by
  unfold keyLe
  simp only [Bool.or_eq_true, Bool.and_eq_true, decide_eq_true_eq, beq_iff_eq]
  rcases Nat.lt_trichotomy a.1 b.1 with h | h | h
  · exact Or.inl (Or.inl h)
  · rcases Int.lt_trichotomy a.2.1 b.2.1 with h2 | h2 | h2
    · exact Or.inl (Or.inr ⟨h, Or.inl h2⟩)
    · rcases le_total a.2.2 b.2.2 with h3 | h3
      · exact Or.inl (Or.inr ⟨h, Or.inr ⟨h2, h3⟩⟩)
      · exact Or.inr (Or.inr ⟨h.symm, Or.inr ⟨h2.symm, h3⟩⟩)
    · exact Or.inr (Or.inr ⟨h.symm, Or.inl h2⟩)
  · exact Or.inr (Or.inl h)

theorem keyLe_trans (a b c : Nat × Int × String)
    (h1 : keyLe a b = true) (h2 : keyLe b c = true) : keyLe a c = true := by
  unfold keyLe at *
  simp only [Bool.or_eq_true, Bool.and_eq_true, decide_eq_true_eq, beq_iff_eq] at *
  rcases h1 with h1 | ⟨he1, h1⟩
  · rcases h2 with h2 | ⟨he2, h2⟩
    · exact Or.inl (by omega)
    · exact Or.inl (by omega)
  · rcases h2 with h2 | ⟨he2, h2⟩
    · exact Or.inl (by omega)
    · refine Or.inr ⟨he1.trans he2, ?_⟩
      rcases h1 with h1 | ⟨hi1, h1⟩
      · rcases h2 with h2 | ⟨hi2, h2⟩
        · exact Or.inl (by omega)
        · exact Or.inl (by omega)
      · rcases h2 with h2 | ⟨hi2, h2⟩
        · exact Or.inl (by omega)
        · exact Or.inr ⟨hi1.trans hi2, le_trans h1 h2⟩

theorem leadLe_total (a b : LeadRow) : leadLe a b = true ∨ leadLe b a = true :=
  keyLe_total _ _

theorem leadLe_trans (a b c : LeadRow)
    (h1 : leadLe a b = true) (h2 : leadLe b c = true) : leadLe a c = true :=
  keyLe_trans _ _ _ h1 h2

/- ------------------------------------------------------------------ -/
/- Helper lemmas: the phone capture has the regex shape and comes from -/
/- a wa.me link inside the input                                       -/
/- ------------------------------------------------------------------ -/



theorem phoneMatchAt_spec {l p : List Char} (h : phoneMatchAt l = some p) :
    phoneShape p ∧ ∃ post, l = "wa.me/".data ++ (p ++ post) := by
  unfold phoneMatchAt at h
  by_cases hst : startsWithCL "wa.me/".data l = true
  · rw [if_pos hst] at h
    have hl : l = "wa.me/".data ++ l.drop 6 := startsWithCL_decomp hst
    by_cases hp : startsWithCL "+".data (l.drop 6) = true
    · rw [if_pos hp] at h
      set d := ((l.drop 6).drop 1).takeWhile Char.isDigit with hd
      by_cases hlen : 7 ≤ d.length
      · rw [if_pos hlen] at h
        have hpv : p = '+' :: d.take 15 := by
          injection h with h
          exact h.symm
        constructor
        · refine ⟨d.take 15, Or.inr hpv, ?_, ?_, ?_⟩
          · rw [List.all_eq_true]
            intro x hx
            exact sat_of_mem_takeWhile (List.mem_of_mem_take hx)
          · rw [List.length_take]
            omega
          · rw [List.length_take]
            omega
        · refine ⟨d.drop 15 ++ ((l.drop 6).drop 1).dropWhile Char.isDigit, ?_⟩
          have hplus : l.drop 6 = '+' :: (l.drop 6).drop 1 := startsWithCL_decomp hp
          have hdec : (l.drop 6).drop 1 = d ++ ((l.drop 6).drop 1).dropWhile Char.isDigit := by
            rw [hd]
            exact (List.takeWhile_append_dropWhile Char.isDigit ((l.drop 6).drop 1)).symm
          have htd : d.take 15 ++ d.drop 15 = d := List.take_append_drop 15 d
          have h1 : d.take 15 ++ (d.drop 15 ++ ((l.drop 6).drop 1).dropWhile Char.isDigit)
              = d ++ ((l.drop 6).drop 1).dropWhile Char.isDigit := by
            rw [← List.append_assoc, htd]
          have hkey : ('+' :: d.take 15) ++ (d.drop 15 ++ ((l.drop 6).drop 1).dropWhile Char.isDigit)
              = '+' :: (l.drop 6).drop 1 := by
            rw [List.cons_append, h1, ← hdec]
          rw [hpv, hkey, ← hplus]
          exact hl
      · rw [if_neg hlen] at h
        exact absurd h (by simp)
    · rw [if_neg hp] at h
      set d := (l.drop 6).takeWhile Char.isDigit with hd
      by_cases hlen : 7 ≤ d.length
      · rw [if_pos hlen] at h
        have hpv : p = d.take 15 := by
          injection h with h
          exact h.symm
        constructor
        · refine ⟨d.take 15, Or.inl hpv, ?_, ?_, ?_⟩
          · rw [List.all_eq_true]
            intro x hx
            exact sat_of_mem_takeWhile (List.mem_of_mem_take hx)
          · rw [List.length_take]
            omega
          · rw [List.length_take]
            omega
        · refine ⟨d.drop 15 ++ (l.drop 6).dropWhile Char.isDigit, ?_⟩
          have hdec : l.drop 6 = d ++ (l.drop 6).dropWhile Char.isDigit := by
            rw [hd]
            exact (List.takeWhile_append_dropWhile Char.isDigit (l.drop 6)).symm
          have htd : d.take 15 ++ d.drop 15 = d := List.take_append_drop 15 d
          have h1 : d.take 15 ++ (d.drop 15 ++ (l.drop 6).dropWhile Char.isDigit)
              = d ++ (l.drop 6).dropWhile Char.isDigit := by
            rw [← List.append_assoc, htd]
          rw [hpv, h1, ← hdec]
          exact hl
      · rw [if_neg hlen] at h
        exact absurd h (by simp)
  · rw [if_neg hst] at h
    exact absurd h (by simp)

theorem phoneSearchAux_spec :
    ∀ (fuel : Nat) (l p : List Char), phoneSearchAux fuel l = some p →
      phoneShape p ∧ ∃ pre post, l = pre ++ ("wa.me/".data ++ (p ++ post)) := by
  intro fuel
  induction fuel with
  | zero =>
    intro l p h
    simp [phoneSearchAux] at h
  | succ f ih =>
    intro l p h
    cases l with
    | nil => simp [phoneSearchAux] at h
    | cons c rest =>
      rw [phoneSearchAux] at h
      cases hm : phoneMatchAt (c :: rest) with
      | some q =>
        rw [hm] at h
        injection h with h
        subst h
        obtain ⟨hs, post, heq⟩ := phoneMatchAt_spec hm
        exact ⟨hs, [], post, heq⟩
      | none =>
        rw [hm] at h
        obtain ⟨hs, pre, post, heq⟩ := ih rest p h
        exact ⟨hs, c :: pre, post, by rw [heq]; rfl⟩

theorem phoneSearch_spec {html : String} {p : String}
    (h : phoneSearch html = some p) :
    phoneShape p.data
    ∧ ∃ pre post, html.data = pre ++ ("wa.me/".data ++ (p.data ++ post)) := by
  unfold phoneSearch at h
  cases hq : phoneSearchAux html.data.length html.data with
  | none => rw [hq] at h; simp at h
  | some q =>
    rw [hq] at h
    simp only [Option.map_some'] at h
    injection h with h
    subst h
    exact phoneSearchAux_spec _ _ _ hq

/- ------------------------------------------------------------------ -/
/- Helper lemmas: email priority equals the minimum matching keyword   -/
/- ------------------------------------------------------------------ -/



theorem get_email_priority_eq_min (email : String) :
    get_email_priority email = spec_min_priority email := by
  unfold get_email_priority spec_min_priority
  exact firstMatch_eq_min _ EMAIL_PRIORITY (by decide)

theorem email_candidates_priority (html : String) :
    ∀ r ∈ email_candidates html, r.priority = spec_min_priority r.email := by
  intro r hr
  unfold email_candidates at hr
  rcases List.mem_filterMap.mp hr with ⟨e, _, hfe⟩
  by_cases hj : is_junk_email (String.mk e) = true
  · rw [if_pos hj] at hfe
    exact absurd hfe (by simp)
  · rw [if_neg hj] at hfe
    injection hfe with hfe
    rw [← hfe]
    show get_email_priority (String.mk e) = spec_min_priority (String.mk (lowerCL e))
    rw [get_email_priority_eq_min]
    unfold spec_min_priority
    have hdata : (String.mk (lowerCL e)).data = lowerCL e := rfl
    have hdata2 : (String.mk e).data = e := rfl
    rw [hdata, hdata2, lowerCL_idem]

/- ------------------------------------------------------------------ -/
/- Claim theorems                                                      -/
/- ------------------------------------------------------------------ -/

/-- C2: for every HTML input, `extract_emails` returns exactly the surviving
candidates (a permutation of the filtered candidate list), sorted ascending
by the pair `(priority, is_free_provider)`; every returned candidate's
priority is the lowest configured priority number whose keyword appears as a
substring of the address's local part, or the configured default when no
keyword matches; and for an input consisting of `owner@x.com`, `info@x.com`
and `support@x.com` in any order, the ranked output lists `owner@x.com`
first and `support@x.com` last. -/
theorem extract_emails_ranking :
    (∀ html : String,
        (extract_emails html).Pairwise (fun a b => emailKeyLe a b = true)
        ∧ List.Perm (extract_emails html) (email_candidates html)
        ∧ ∀ r ∈ extract_emails html, r.priority = spec_min_priority r.email)
    ∧ (∀ s ∈ (["owner@x.com info@x.com support@x.com",
               "owner@x.com support@x.com info@x.com",
               "info@x.com owner@x.com support@x.com",
               "info@x.com support@x.com owner@x.com",
               "support@x.com owner@x.com info@x.com",
               "support@x.com info@x.com owner@x.com"] : List String),
          (extract_emails s).map (·.email)
            = ["owner@x.com", "info@x.com", "support@x.com"]) := by
  constructor
  · intro html
    refine ⟨sorted_insertionSort emailKeyLe_total emailKeyLe_trans _,
            perm_insertionSort emailKeyLe _, ?_⟩
    intro r hr
    apply email_candidates_priority html
    exact ((perm_insertionSort emailKeyLe _).mem_iff).mp hr
  · decide

/-- Witness for C2 at concrete inputs. -/
theorem extract_emails_ranking_witness :
    (extract_emails "support@x.com owner@x.com info@x.com").map (·.email)
      = ["owner@x.com", "info@x.com", "support@x.com"]
    ∧ ({ email := "owner@x.com", priority := 1, is_free_provider := false }
        : EmailResult).priority = spec_min_priority "owner@x.com" :=
  ⟨extract_emails_ranking.2 "support@x.com owner@x.com info@x.com" (by decide),
   (extract_emails_ranking.1 "owner@x.com").2.2
     { email := "owner@x.com", priority := 1, is_free_provider := false }
     (by decide)⟩

/-- C3: `detect_whatsapp` applies the tiers in strict precedence order with
first match winning — a definitive link pattern (case-insensitive substring)
yields confidence "definitive", else a widget marker yields "widget", else
the bare keyword yields "maybe", else "none" with `found = false`; on a
definitive match the phone is whatever `re.search` of the wa.me pattern
extracts from the page, any extracted phone has 7–15 digits with an optional
leading `+` and sits directly after a `wa.me/` link in the input, and
absence of an extractable number is not an error; an input containing both a
definitive pattern and a widget marker classifies as "definitive". -/
theorem detect_whatsapp_tiers :
    ∀ html : String,
      (WHATSAPP_DEFINITIVE_PATTERNS.any (patternHit (lowerCL html.data)) = true →
        detect_whatsapp html =
          { found := true, confidence := "definitive", phone := phoneSearch html })
      ∧ (WHATSAPP_DEFINITIVE_PATTERNS.any (patternHit (lowerCL html.data)) = false →
         WHATSAPP_WIDGET_PATTERNS.any (patternHit (lowerCL html.data)) = true →
          detect_whatsapp html = { found := true, confidence := "widget", phone := none })
      ∧ (WHATSAPP_DEFINITIVE_PATTERNS.any (patternHit (lowerCL html.data)) = false →
         WHATSAPP_WIDGET_PATTERNS.any (patternHit (lowerCL html.data)) = false →
         WHATSAPP_WEAK_PATTERNS.any (patternHit (lowerCL html.data)) = true →
          detect_whatsapp html = { found := true, confidence := "maybe", phone := none })
      ∧ (WHATSAPP_DEFINITIVE_PATTERNS.any (patternHit (lowerCL html.data)) = false →
         WHATSAPP_WIDGET_PATTERNS.any (patternHit (lowerCL html.data)) = false →
         WHATSAPP_WEAK_PATTERNS.any (patternHit (lowerCL html.data)) = false →
          detect_whatsapp html = { found := false, confidence := "none", phone := none })
      ∧ (∀ p : String, phoneSearch html = some p →
          phoneShape p.data
          ∧ ∃ pre post, html.data = pre ++ ("wa.me/".data ++ (p.data ++ post)))
      ∧ detect_whatsapp "Chat on https://wa.me/27821234567 or use our wa-chat-box"
          = { found := true, confidence := "definitive", phone := some "27821234567" } := by
  intro html
  refine ⟨?_, ?_, ?_, ?_, ?_, by decide⟩
  · intro h1
    simp [detect_whatsapp, h1]
  · intro h1 h2
    simp [detect_whatsapp, h1, h2]
  · intro h1 h2 h3
    simp [detect_whatsapp, h1, h2, h3]
  · intro h1 h2 h3
    simp [detect_whatsapp, h1, h2, h3]
  · intro p hp
    exact phoneSearch_spec hp

/-- Witness for C3 at concrete inputs covering each tier. -/
theorem detect_whatsapp_tiers_witness :
    detect_whatsapp "x wa.me/1234567 y"
      = { found := true, confidence := "definitive",
          phone := phoneSearch "x wa.me/1234567 y" }
    ∧ detect_whatsapp "see wati.io box"
      = { found := true, confidence := "widget", phone := none }
    ∧ detect_whatsapp "our WhatsApp line"
      = { found := true, confidence := "maybe", phone := none }
    ∧ detect_whatsapp "plain page"
      = { found := false, confidence := "none", phone := none }
    ∧ (phoneShape ("1234567" : String).data
       ∧ ∃ pre post, ("x wa.me/1234567 y" : String).data
           = pre ++ ("wa.me/".data ++ (("1234567" : String).data ++ post))) :=
  ⟨(detect_whatsapp_tiers "x wa.me/1234567 y").1 (by decide),
   (detect_whatsapp_tiers "see wati.io box").2.1 (by decide) (by decide),
   (detect_whatsapp_tiers "our WhatsApp line").2.2.1 (by decide) (by decide) (by decide),
   (detect_whatsapp_tiers "plain page").2.2.2.1 (by decide) (by decide) (by decide),
   (detect_whatsapp_tiers "x wa.me/1234567 y").2.2.2.2.1 "1234567" (by decide)⟩

/-- C1: for every domain, if all `SCRAPE_MAX_RETRIES` home-page fetch
attempts yield no page, `scrape_store` returns status "failed" with reason
`homepage_unreachable` and the only fetches performed are the retry attempts
on the home page itself (no contact-page fetch, no render); and if the home
page is fetched but carries no target-platform marker, the outcome is status
"skipped" with reason `not_shopify`, the single home-page fetch is the only
page fetch performed, and the result is the fixed skip record — in
particular independent of the password-gate markers, which are never
consulted on this path. -/
theorem scrape_store_terminal_paths :
    ∀ (env : ScrapeEnv) (domain : String) (usePw : Bool),
      ((∀ k, k < SCRAPE_MAX_RETRIES → fetchT env k ("https://" ++ domain) = none) →
        scrape_store env domain usePw =
          ({ domain := domain, scrape_status := "failed",
             error := "homepage_unreachable", scraped_at := env.now_ts },
           List.replicate SCRAPE_MAX_RETRIES ("https://" ++ domain), []))
      ∧ (∀ h : String, fetchT env 0 ("https://" ++ domain) = some h →
          is_shopify_store h = false →
          scrape_store env domain usePw =
            ({ domain := domain, scrape_status := "skipped",
               error := "not_shopify", scraped_at := env.now_ts },
             ["https://" ++ domain], [])) := by
  intro env domain usePw
  constructor
  · intro hf
    have h0 := hf 0 (by decide)
    have h1 := hf 1 (by decide)
    have h2 := hf 2 (by decide)
    simp [scrape_store, SCRAPE_MAX_RETRIES, fetchHomeLoop, h0, h1, h2,
      List.replicate]
  · intro h hf hsh
    simp [scrape_store, SCRAPE_MAX_RETRIES, fetchHomeLoop, hf, hsh]



/-- Witness for C1: both terminal paths at concrete environments. -/
theorem scrape_store_terminal_paths_witness :
    scrape_store envAllFail "s.co.za" true =
      ({ domain := "s.co.za", scrape_status := "failed",
         error := "homepage_unreachable", scraped_at := "t0" },
       List.replicate SCRAPE_MAX_RETRIES "https://s.co.za", [])
    ∧ scrape_store envNotShopify "s.co.za" true =
      ({ domain := "s.co.za", scrape_status := "skipped",
         error := "not_shopify", scraped_at := "t0" },
       ["https://s.co.za"], []) :=
  ⟨(scrape_store_terminal_paths envAllFail "s.co.za" true).1
     (fun k _ => by simp [fetchT, envAllFail, truthyPage]),
   (scrape_store_terminal_paths envNotShopify "s.co.za" true).2
     "a plain page" (by decide) (by decide)⟩

/-- C9 (amended): inside the render fallback of `scrape_store`, the
messaging detector is re-run only on a rendered page that yields no email
candidate: such a page, when the signal was not yet present, contributes the
detector's result if it found a signal, and the loop continues; a rendered
page that does yield email candidates ends the fallback immediately with
the messaging signal unchanged, without consulting the detector on that
page; and a signal already present is never overwritten. -/
theorem pw_fallback_rerun :
    ∀ (render : String → Option String) (u : String) (us : List String)
      (wa : WhatsAppResult) (h : String),
      (truthyPage (render u) = some h → extract_emails h ≠ [] →
        pwFallbackLoop render (u :: us) wa = (extract_emails h, wa, [u]))
      ∧ (truthyPage (render u) = some h → extract_emails h = [] →
         wa.found = false → (detect_whatsapp h).found = true →
          pwFallbackLoop render (u :: us) wa =
            ((pwFallbackLoop render us (detect_whatsapp h)).1,
             (pwFallbackLoop render us (detect_whatsapp h)).2.1,
             u :: (pwFallbackLoop render us (detect_whatsapp h)).2.2))
      ∧ (wa.found = true →
          (pwFallbackLoop render (u :: us) wa).2.1 = wa) := by
  have hpres : ∀ (render : String → Option String) (urls : List String)
      (wa : WhatsAppResult), wa.found = true →
        (pwFallbackLoop render urls wa).2.1 = wa := by
    intro render urls
    induction urls with
    | nil => intro wa h; rfl
    | cons u us ih =>
      intro wa h
      simp only [pwFallbackLoop]
      cases ht : truthyPage (render u) with
      | none =>
        simp only
        exact ih wa h
      | some pg =>
        simp only
        by_cases he : (extract_emails pg).isEmpty = true
        · rw [if_pos he]
          simp only [h, if_pos rfl]
          exact ih wa h
        · rw [if_neg he]
  intro render u us wa h
  refine ⟨?_, ?_, hpres render (u :: us) wa⟩
  · intro ht he
    have he2 : (extract_emails h).isEmpty = false := by
      cases hx : extract_emails h with
      | nil => exact absurd hx he
      | cons a l => rfl
    simp [pwFallbackLoop, ht, he2]
  · intro ht he hw hd
    have he2 : (extract_emails h).isEmpty = true := by rw [he]; rfl
    simp [pwFallbackLoop, ht, he2, hw, hd]

/-- Witness for C9's amended statement at concrete inputs. -/
theorem pw_fallback_rerun_witness :
    pwFallbackLoop (fun _ => some "a@b.za x") ["u"] { found := false, confidence := "none", phone := none }
      = (extract_emails "a@b.za x", { found := false, confidence := "none", phone := none }, ["u"])
    ∧ pwFallbackLoop (fun _ => some "see wa.me/1234567") ["u"] { found := false, confidence := "none", phone := none }
      = ((pwFallbackLoop (fun _ => some "see wa.me/1234567") []
            (detect_whatsapp "see wa.me/1234567")).1,
         (pwFallbackLoop (fun _ => some "see wa.me/1234567") []
            (detect_whatsapp "see wa.me/1234567")).2.1,
         "u" :: (pwFallbackLoop (fun _ => some "see wa.me/1234567") []
            (detect_whatsapp "see wa.me/1234567")).2.2)
    ∧ (pwFallbackLoop (fun _ => some "wati.io") ["u"]
         { found := true, confidence := "definitive", phone := none }).2.1
      = { found := true, confidence := "definitive", phone := none } :=
  ⟨(pw_fallback_rerun (fun _ => some "a@b.za x") "u" [] ⟨false, "none", none⟩ "a@b.za x").1
     (by decide) (by decide),
   (pw_fallback_rerun (fun _ => some "see wa.me/1234567") "u" [] ⟨false, "none", none⟩
      "see wa.me/1234567").2.1 (by decide) (by decide) (by decide) (by decide),
   (pw_fallback_rerun (fun _ => some "wati.io") "u" [] ⟨true, "definitive", none⟩
      "wati.io").2.2 (by decide)⟩



/-- Counterexample to C9 as stated: the render fallback runs (the
home page is rendered), the fast-path messaging signal was absent, the
rendered text carries a definitive signal the detector would report, yet the
outcome's messaging signal stays absent because the rendered page also
yielded an email candidate, which ends the loop before the detector re-runs. -/
theorem pw_fallback_rerun_counterexample :
    (scrape_store envRenderBoth "s.co.za" true).2.2 = ["https://s.co.za"]
    ∧ (scrape_store envRenderBoth "s.co.za" true).1.email = some "a@b.za"
    ∧ (scrape_store envRenderBoth "s.co.za" true).1.has_whatsapp = false
    ∧ (scrape_store envRenderBoth "s.co.za" true).1.whatsapp_confidence = "none"
    ∧ detect_whatsapp "a@b.za wa.me/1234567"
        = { found := true, confidence := "definitive", phone := some "1234567" } := by
  refine ⟨?_, ?_, ?_, ?_, ?_⟩ <;> decide

/- ------------------------------------------------------------------ -/
/- C4: lead sorting                                                    -/
/- ------------------------------------------------------------------ -/

theorem string_data_isEmpty (s : String) : s.data.isEmpty = true ↔ s = "" := by
  cases s with
  | mk l => cases l <;> simp [List.isEmpty, String.ext_iff]



theorem lead_sort_key_tier (row : LeadRow) :
    lead_sort_key row = (tier_spec row, coercePriority row.email_priority, row.domain) := by
  unfold lead_sort_key tier_spec
  have hemail : (!row.email.data.isEmpty) = true ↔ row.email ≠ "" := by
    rw [Bool.not_eq_true', ← Bool.not_eq_true, not_iff_not]
    exact string_data_isEmpty row.email
  by_cases hw : row.has_whatsapp = true <;>
    by_cases he : row.email = "" <;>
      by_cases hv : row.email_verified = "safe" <;>
        simp_all



/-- Counterexample to C4 as stated: the code sends a non-numeric priority
string to the sentinel 99, not to the configured default priority 3, so a
row with priority "abc" sorts after a same-tier row with priority 50,
while the claimed fallback would sort it first. -/
theorem sort_leads_counterexample :
    coercePriority (.pStr "abc") = 99
    ∧ DEFAULT_EMAIL_PRIORITY = 3
    ∧ claim_coerce_priority (.pStr "abc") = 3
    ∧ sort_leads [rowNonNumeric, rowFifty] = [rowFifty, rowNonNumeric]
    ∧ claim_sort_leads [rowNonNumeric, rowFifty] = [rowNonNumeric, rowFifty] := by
  refine ⟨?_, ?_, ?_, ?_, ?_⟩ <;> decide

/-- C4 (amended): `sort_leads` stably orders arbitrary rows by the total
preorder on keys (tier, coerced priority, domain): the tier sequence is
exactly messaging+email+verified-safe (0) < messaging+email (1) < messaging
without email (2) < email+verified-safe (3) < email (4) < neither (5);
within a tier ascending coerced priority, then the domain string; a
numeric-looking string priority is coerced to an integer before comparison,
and non-numeric or empty priority values fall back to the sentinel 99 (not
to the configured default priority). -/
theorem sort_leads_order :
    (∀ rows : List LeadRow,
        (sort_leads rows).Pairwise (fun a b => leadLe a b = true)
        ∧ List.Perm (sort_leads rows) rows)
    ∧ (∀ a b : LeadRow, leadLe a b = true ∨ leadLe b a = true)
    ∧ (∀ row : LeadRow,
        lead_sort_key row = (tier_spec row, coercePriority row.email_priority, row.domain))
    ∧ (∀ (s : String) (n : Int), pyInt s = some n → coercePriority (.pStr s) = n)
    ∧ (∀ s : String, pyInt s = none → coercePriority (.pStr s) = 99)
    ∧ coercePriority .pMissing = 99
    ∧ coercePriority (.pStr "") = 99 := by
  refine ⟨?_, leadLe_total, lead_sort_key_tier, ?_, ?_, rfl, by decide⟩
  · intro rows
    exact ⟨sorted_insertionSort leadLe_total leadLe_trans rows,
           perm_insertionSort leadLe rows⟩
  · intro s n hs
    have hred : coercePriority (.pStr s)
        = if s.data.isEmpty then (99 : Int)
          else match pyInt s with | some m => m | none => 99 := rfl
    rw [hred]
    by_cases he : s.data.isEmpty = true
    · rw [(string_data_isEmpty s).mp he] at hs
      have : pyInt "" = none := by decide
      rw [this] at hs
      exact absurd hs (by simp)
    · rw [if_neg he, hs]
  · intro s hs
    have hred : coercePriority (.pStr s)
        = if s.data.isEmpty then (99 : Int)
          else match pyInt s with | some m => m | none => 99 := rfl
    rw [hred]
    by_cases he : s.data.isEmpty = true
    · rw [if_pos he]
    · rw [if_neg he, hs]

/-- Witness for C4's amended statement at concrete inputs. -/
theorem sort_leads_order_witness :
    coercePriority (.pStr " 12 ") = 12
    ∧ coercePriority (.pStr "zz") = 99
    ∧ (sort_leads [rowNonNumeric, rowFifty]).Pairwise (fun a b => leadLe a b = true) :=
  ⟨sort_leads_order.2.2.2.1 " 12 " 12 (by decide),
   sort_leads_order.2.2.2.2.1 "zz" (by decide),
   (sort_leads_order.1 [rowNonNumeric, rowFifty]).1⟩

/- ------------------------------------------------------------------ -/
/- C5: domain canonicalization                                         -/
/- ------------------------------------------------------------------ -/

theorem lowerChar_eq_of_not_lower {c r : Char}
    (hr : ¬(97 ≤ r.toNat ∧ r.toNat ≤ 122)) (h : lowerChar c = r) : c = r := by
  by_cases hc : 65 ≤ c.toNat ∧ c.toNat ≤ 90
  · exfalso
    have ht := lowerChar_toNat_of_upper hc
    rw [h] at ht
    omega
  · unfold lowerChar at h
    rwa [if_neg hc] at h

theorem startsWithCL_append {n1 n2 t : List Char} :
    startsWithCL (n1 ++ n2) (n1 ++ t) = startsWithCL n2 t := by
  induction n1 with
  | nil => rfl
  | cons a as ih =>
    simp only [List.cons_append, startsWithCL, beq_self_eq_true, Bool.true_and]
    exact ih

theorem startsWith_of_startsWith_takeWhile {n : List Char} {p : Char → Bool}
    {l : List Char} (h : startsWithCL n (l.takeWhile p) = true) :
    startsWithCL n l = true := by
  rw [startsWithCL_iff_take] at *
  have hlen : n.length ≤ (l.takeWhile p).length := by
    have := congrArg List.length h
    rw [List.length_take] at this
    omega
  have hpre : l = l.takeWhile p ++ l.dropWhile p :=
    (List.takeWhile_append_dropWhile p l).symm
  rw [hpre, List.take_append_of_le_length hlen]
  exact h

theorem parsedHost_fixed {url : String} {x : Char} (hx : x ∈ parsedHost url) :
    lowerChar x = x := by
  unfold parsedHost at hx
  have h1 := mem_of_mem_trimCL hx
  rcases mem_lowerCL h1 with ⟨c, _, rfl⟩
  exact lowerChar_idem c

theorem parsedHost_source {url : String} {x : Char} (hx : x ∈ parsedHost url) :
    ∃ c, lowerChar c = x ∧ (c ∈ url.data ∨ c ∈ "https://".data) := by
  unfold parsedHost at hx
  have h1 := mem_of_mem_trimCL hx
  rcases mem_lowerCL h1 with ⟨c, hc, heq⟩
  refine ⟨c, heq, ?_⟩
  have hrest : c ∈ afterScheme url := by
    by_cases hni : (netlocOf url).isEmpty = true
    · rw [if_pos hni] at hc
      have h2 := mem_of_mem_takeWhile hc
      have h3 := mem_of_mem_takeWhile h2
      exact List.mem_of_mem_drop h3
    · rw [if_neg hni] at hc
      unfold netlocOf at hc
      exact mem_of_mem_takeWhile hc
  have hu : c ∈ withScheme url := by
    unfold afterScheme at hrest
    by_cases hs : startsWithCL "http://".data (withScheme url) = true
    · rw [if_pos hs] at hrest
      exact List.mem_of_mem_drop hrest
    · rw [if_neg hs] at hrest
      exact List.mem_of_mem_drop hrest
  unfold withScheme at hu
  by_cases hsch : (startsWithCL "http://".data url.data
      || startsWithCL "https://".data url.data) = true
  · rw [if_pos hsch] at hu
    exact Or.inl hu
  · rw [if_neg hsch] at hu
    rcases List.mem_append.mp hu with h | h
    · exact Or.inr h
    · exact Or.inl h

theorem not_mem_parsedHost_slash (url : String) : '/' ∉ parsedHost url := by
  intro hx
  unfold parsedHost at hx
  have h1 := mem_of_mem_trimCL hx
  rcases mem_lowerCL h1 with ⟨c, hc, heq⟩
  have hcq : c = '/' := lowerChar_eq_of_not_lower (by decide) heq
  subst hcq
  by_cases hni : (netlocOf url).isEmpty = true
  · rw [if_pos hni] at hc
    have := sat_of_mem_takeWhile hc
    simp at this
  · rw [if_neg hni] at hc
    unfold netlocOf at hc
    have := sat_of_mem_takeWhile hc
    simp at this

theorem mem_domainKey {url : String} {x : Char}
    (hx : x ∈ takeBeforeCL ':' (strippedHost url)) : x ∈ parsedHost url := by
  unfold takeBeforeCL at hx
  have h1 := mem_of_mem_takeWhile hx
  unfold strippedHost at h1
  by_cases hw : startsWithCL "www.".data (parsedHost url) = true
  · rw [if_pos hw] at h1
    exact List.mem_of_mem_drop h1
  · rwa [if_neg hw] at h1

/-- Counterexample to C5 as stated: a host that repeats the `www.` prefix
keeps the inner one, so the returned canonical domain can still carry a
leading `www.`. -/
theorem normalize_domain_counterexample :
    normalize_domain "www.www.ab.com" = some "www.ab.com"
    ∧ startsWithCL "www.".data ("www.ab.com" : String).data = true := by
  refine ⟨?_, ?_⟩ <;> decide

/-- C5 (amended): `normalize_domain` never raises and returns either no
value or a canonical domain that is lowercase, contains no `:` (so neither
a scheme separator nor a port) and no `/` (so no path), contains at least
one dot and has length at least 4; exactly one leading `www.` is stripped,
so the result starts with `www.` only when the parsed host repeated the
prefix (began with `www.www.`); the empty input and every input without a
dot yield no value. -/
theorem normalize_domain_canonical :
    (∀ (url : String) (d : String), normalize_domain url = some d →
        lowerCL d.data = d.data
        ∧ ':' ∉ d.data
        ∧ '/' ∉ d.data
        ∧ '.' ∈ d.data
        ∧ 4 ≤ d.data.length
        ∧ (startsWithCL "www.www.".data (parsedHost url) = false →
            startsWithCL "www.".data d.data = false))
    ∧ normalize_domain "" = none
    ∧ (∀ url : String, '.' ∉ url.data → normalize_domain url = none) := by
  refine ⟨?_, by decide, ?_⟩
  · intro url d h
    unfold normalize_domain at h
    split at h
    · exact absurd h (by simp)
    · split at h
      · exact absurd h (by simp)
      · split at h
        · rename_i hcond
          injection h with h
          obtain ⟨hdot, hlen⟩ := hcond
          have hdata : d.data = domainKey url := by rw [← h]
          rw [hdata]
          refine ⟨?_, ?_, ?_, hdot, hlen, ?_⟩
          · unfold lowerCL
            have : (domainKey url).map lowerChar = (domainKey url).map id :=
              List.map_congr_left (fun x hx => parsedHost_fixed (mem_domainKey hx))
            rw [this, List.map_id]
          · intro hcolon
            have := sat_of_mem_takeWhile hcolon
            simp at this
          · intro hslash
            exact not_mem_parsedHost_slash url (mem_domainKey hslash)
          · intro hww
            by_cases hs : startsWithCL "www.".data (domainKey url) = true
            · exfalso
              have hsw : startsWithCL "www.".data (strippedHost url) = true :=
                startsWith_of_startsWith_takeWhile hs
              unfold strippedHost at hsw
              by_cases hw1 : startsWithCL "www.".data (parsedHost url) = true
              · rw [if_pos hw1] at hsw
                have hdec : parsedHost url = "www.".data ++ (parsedHost url).drop 4 :=
                  startsWithCL_decomp hw1
                have htrue : startsWithCL "www.www.".data (parsedHost url) = true := by
                  have hsplit : ("www.www." : String).data = "www.".data ++ "www.".data := rfl
                  rw [hsplit, hdec, startsWithCL_append]
                  exact hsw
                rw [htrue] at hww
                exact Bool.noConfusion hww
              · rw [if_neg hw1] at hsw
                exact absurd hsw hw1
            · simpa using hs
        · exact absurd h (by simp)
  · intro url hdot
    unfold normalize_domain
    split
    · rfl
    · split
      · rfl
      · rw [if_neg]
        rintro ⟨hdk, _⟩
        rcases parsedHost_source (mem_domainKey hdk) with ⟨c, heq, hsrc⟩
        have hc : c = '.' := lowerChar_eq_of_not_lower (by decide) heq
        subst hc
        rcases hsrc with h | h
        · exact hdot h
        · exact absurd h (by decide)

/-- Witness for C5's amended statement at concrete inputs. -/
theorem normalize_domain_canonical_witness :
    (lowerCL ("shop.co.za" : String).data = ("shop.co.za" : String).data
     ∧ ':' ∉ ("shop.co.za" : String).data
     ∧ '/' ∉ ("shop.co.za" : String).data
     ∧ '.' ∈ ("shop.co.za" : String).data
     ∧ 4 ≤ ("shop.co.za" : String).data.length
     ∧ (startsWithCL "www.www.".data (parsedHost "https://www.Shop.co.za:443/x") = false →
         startsWithCL "www.".data ("shop.co.za" : String).data = false))
    ∧ normalize_domain "nodotshere" = none :=
  ⟨normalize_domain_canonical.1 "https://www.Shop.co.za:443/x" "shop.co.za" (by decide),
   normalize_domain_canonical.2.2 "nodotshere" (by decide)⟩

/- ------------------------------------------------------------------ -/
/- C6, C7, C10: discovery cursor                                       -/
/- ------------------------------------------------------------------ -/

theorem discover_stores_qi (env : DiscEnv) (N B : Nat) (st : DorkState)
    (sn : Finset String) :
    (discover_stores env N B false st sn).state.query_index
      = if N ≤ st.query_index then st.query_index
        else min (st.query_index + B) N := by
  unfold discover_stores
  split
  · rfl
  · simp

theorem runsFrom_qi (envs : Nat → DiscEnv) (N B : Nat) :
    ∀ k, (runsFrom envs N B k).1.query_index = min (k * B) N := by
  intro k
  induction k with
  | zero => simp [runsFrom]
  | succ k ih =>
    have hstep : (runsFrom envs N B (k + 1)).1.query_index
        = if N ≤ (runsFrom envs N B k).1.query_index
          then (runsFrom envs N B k).1.query_index
          else min ((runsFrom envs N B k).1.query_index + B) N := by
      simp only [runsFrom]
      exact discover_stores_qi _ _ _ _ _
    rw [hstep, ih]
    rcases Nat.lt_or_ge (k * B) N with h | h
    · rw [if_neg (by omega)]
      have hmin : min (k * B) N = k * B := by omega
      rw [hmin]
      have : (k + 1) * B = k * B + B := by ring
      omega
    · rw [if_pos (by omega)]
      have : (k + 1) * B = k * B + B := by ring
      omega

/-- C6: a completed non-exhausted batch run searches exactly the query
indices in `[position, min(position+B, N))` and sets the cursor to
`min(position+B, N)`; iterating runs from a fresh cursor, the position after
`k` runs is `min(k*B, N)`, so positions advance monotonically, the
half-open ranges `[min(k*B,N), min((k+1)*B,N))` of successive runs never
overlap, and every query index below `N` is covered by the run numbered
`x / B`. -/
theorem discovery_cursor_batches :
    ∀ (envs : Nat → DiscEnv) (env : DiscEnv) (N B : Nat) (st : DorkState)
      (sn : Finset String),
      0 < B →
      ((st.query_index < N →
          (discover_stores env N B false st sn).searched
            = List.range' st.query_index (min (st.query_index + B) N - st.query_index)
          ∧ (discover_stores env N B false st sn).state.query_index
            = min (st.query_index + B) N)
       ∧ (∀ k, (runsFrom envs N B k).1.query_index = min (k * B) N)
       ∧ (∀ j k, j < k → min ((j + 1) * B) N ≤ min (k * B) N)
       ∧ (∀ x, x < N →
            min ((x / B) * B) N ≤ x ∧ x < min ((x / B + 1) * B) N)) := by
  intro envs env N B st sn hB
  refine ⟨?_, runsFrom_qi envs N B, ?_, ?_⟩
  · intro h
    constructor
    · unfold discover_stores
      rw [if_neg (by omega)]
      simp
    · rw [discover_stores_qi]
      rw [if_neg (by omega)]
  · intro j k hjk
    have : (j + 1) * B ≤ k * B := Nat.mul_le_mul_right B (by omega)
    omega
  · intro x hx
    have hdm := Nat.div_add_mod x B
    have hmod := Nat.mod_lt x hB
    have hc : x / B * B = B * (x / B) := Nat.mul_comm _ _
    have hc2 : (x / B + 1) * B = x / B * B + B := by ring
    omega

/-- Witness for C6 at a concrete configuration. -/
theorem discovery_cursor_batches_witness :
    (discover_stores ⟨fun _ => []⟩ 5 2 false ⟨4, 0⟩ ∅).searched = List.range' 4 (min (4 + 2) 5 - 4)
    ∧ (runsFrom (fun _ => ⟨fun _ => []⟩) 5 2 3).1.query_index = min (3 * 2) 5
    ∧ (min ((3 / 2) * 2) 5 ≤ 3 ∧ 3 < min ((3 / 2 + 1) * 2) 5) :=
  ⟨((discovery_cursor_batches (fun _ => ⟨fun _ => []⟩) ⟨fun _ => []⟩ 5 2 ⟨4, 0⟩ ∅
      (by decide)).1 (by decide)).1,
   (discovery_cursor_batches (fun _ => ⟨fun _ => []⟩) ⟨fun _ => []⟩ 5 2 ⟨4, 0⟩ ∅
      (by decide)).2.1 3,
   (discovery_cursor_batches (fun _ => ⟨fun _ => []⟩) ⟨fun _ => []⟩ 5 2 ⟨4, 0⟩ ∅
      (by decide)).2.2.2 3 (by decide)⟩

/-- C7: when the persisted cursor position has reached the query-list length
at batch start, `discover_stores` performs no searches, writes no file and
changes no state — a complete no-op — while a non-exhausted batch always
writes the cursor file, the ledger file and the discovered-stores file even
when it found nothing new, which makes the exhausted outcome observably
different from an empty completed batch. -/
theorem discovery_exhausted_noop :
    ∀ (env : DiscEnv) (N B : Nat) (st : DorkState) (sn : Finset String),
      (N ≤ st.query_index →
        discover_stores env N B false st sn =
          { new_domains := [], state := st, seen := sn, searched := [],
            saved_state := false, saved_seen := false, saved_stores := false })
      ∧ (st.query_index < N →
          (discover_stores env N B false st sn).saved_state = true
          ∧ (discover_stores env N B false st sn).saved_seen = true
          ∧ (discover_stores env N B false st sn).saved_stores = true) := by
  intro env N B st sn
  constructor
  · intro h
    unfold discover_stores
    rw [if_pos h]
  · intro h
    unfold discover_stores
    rw [if_neg (by omega)]
    simp

/-- Witness for C7: an exhausted run and a live run at concrete states. -/
theorem discovery_exhausted_noop_witness :
    discover_stores ⟨fun _ => []⟩ 5 2 false ⟨7, 3⟩ ∅ =
      { new_domains := [], state := ⟨7, 3⟩, seen := ∅, searched := [],
        saved_state := false, saved_seen := false, saved_stores := false }
    ∧ (discover_stores ⟨fun _ => []⟩ 5 2 false ⟨0, 0⟩ ∅).saved_state = true :=
  ⟨(discovery_exhausted_noop ⟨fun _ => []⟩ 5 2 ⟨7, 3⟩ ∅).1 (by decide),
   ((discovery_exhausted_noop ⟨fun _ => []⟩ 5 2 ⟨0, 0⟩ ∅).2 (by decide)).1⟩

/-- C10: a dry run returns no domains and is a pure no-op: the cursor state
(position and total_discovered), the ledger and all three files are left
exactly as loaded, because the function returns before any search or save. -/
theorem discovery_dry_run_pure :
    ∀ (env : DiscEnv) (N B : Nat) (st : DorkState) (sn : Finset String),
      discover_stores env N B true st sn =
        { new_domains := [], state := st, seen := sn, searched := [],
          saved_state := false, saved_seen := false, saved_stores := false } := by
  intro env N B st sn
  unfold discover_stores
  split
  · rfl
  · simp

/- ------------------------------------------------------------------ -/
/- C8: the dedup ledger                                                -/
/- ------------------------------------------------------------------ -/

/-- C8: adding a domain that is already a ledger member changes neither the
membership set nor its size, and saving the ledger then loading the saved
list reproduces exactly the same membership set. -/
theorem ledger_add_idem_save_load :
    ∀ (s : Finset String) (d : String),
      (d ∈ s → seen_add s d = s ∧ seen_size (seen_add s d) = seen_size s)
      ∧ seen_load (seen_save s) = s := by
  intro s d
  constructor
  · intro h
    have he : seen_add s d = s := Finset.insert_eq_self.mpr h
    exact ⟨he, by rw [he]⟩
  · unfold seen_load seen_save
    exact Finset.sort_toFinset _ s

/-- Witness for C8 at a concrete two-element ledger. -/
theorem ledger_add_idem_save_load_witness :
    seen_add {"a.com", "b.com"} "a.com" = {"a.com", "b.com"}
    ∧ seen_size (seen_add {"a.com", "b.com"} "a.com") = seen_size {"a.com", "b.com"}
    ∧ seen_load (seen_save {"a.com", "b.com"}) = {"a.com", "b.com"} :=
  ⟨((ledger_add_idem_save_load {"a.com", "b.com"} "a.com").1 (by decide)).1,
   ((ledger_add_idem_save_load {"a.com", "b.com"} "a.com").1 (by decide)).2,
   (ledger_add_idem_save_load {"a.com", "b.com"} "a.com").2⟩
